/-
  Verification of the rust-oids simulation engine against its specification.

  The development shallowly embeds the relevant parts of the source:
  * `src/app/world.rs`   — the charge low-pass filter `State`, `Limb`,
    `Creature`, `Flock`, `CreatureRefs`;
  * `src/backend/systems/physics.rs` — `PhysicsSystem::build_fixtures`,
    `update`, `to_world`;
  * `src/backend/systems/alife.rs`   — `AlifeSystem::find_eaten_resources`,
    `find_touched_spores`, `update_minions`, `update_spores`, `crossover`;
  * `src/app/mod.rs`     — the per-tick step ordering of `App::update`.

  Machine floats (`f32`) are modelled over `ℝ` where the claim is analytic
  (the exponential charge filter) and over `ℚ` elsewhere, so that the
  embedded operations stay executable.  External capabilities (the Box2D
  solver, cgmath vector normalisation, the genetic crossover operator and
  the parts of `backend::world` that are not in the sources) are taken as
  parameters or modelled from the spec; such definitions carry a
  `Modelled from the spec:` doc comment.
-/
import Mathlib

namespace RustOids

/-! ## The charge low-pass filter (`src/app/world.rs`, `State`) -/

/-- The per-limb `State` of `src/app/world.rs`: age counters and the
exponentially smoothed charge scalar.  `f32` fields are modelled over `ℝ`
because the claim about this filter is analytic. -/
structure State where
  age_seconds : ℝ
  age_frames : Nat
  charge : ℝ
  target_charge : ℝ
  tau : ℝ

/-- `State::default()`: charge 1, target 0, tau 2. -/
def State.default : State :=
  { age_seconds := 0, age_frames := 0, charge := 1, target_charge := 0, tau := 2 }

/-- `State::update(dt)`: ages advance and the charge moves toward the target
by the first-order low-pass rule with `alpha = 1 - exp(-dt/tau)`. -/
noncomputable def State.update (s : State) (dt : ℝ) : State :=
  let alpha := 1 - Real.exp (-dt / s.tau)
  { s with
    age_seconds := s.age_seconds + dt
    age_frames := s.age_frames + 1
    charge := s.target_charge * alpha + s.charge * (1 - alpha) }

/-- `State::with_charge(initial, target)`. -/
def State.with_charge (initial target : ℝ) : State :=
  { State.default with charge := initial, target_charge := target }

/-- Repeated application of `State::update` with a constant `dt`. -/
noncomputable def State.iter (s : State) (dt : ℝ) : Nat → State
  | 0 => s
  | n + 1 => (s.iter dt n).update dt

theorem State.update_tau (s : State) (dt : ℝ) : (s.update dt).tau = s.tau := rfl

theorem State.update_target (s : State) (dt : ℝ) :
    (s.update dt).target_charge = s.target_charge := rfl

theorem State.update_charge_eq (s : State) (dt : ℝ) :
    (s.update dt).charge =
      s.target_charge * (1 - Real.exp (-dt / s.tau))
        + s.charge * (1 - (1 - Real.exp (-dt / s.tau))) := rfl

/-- The defect from the target contracts by the factor `exp (-dt / tau)`
at every update. -/
theorem State.update_charge_sub_target (s : State) (dt : ℝ) :
    (s.update dt).charge - s.target_charge =
      Real.exp (-dt / s.tau) * (s.charge - s.target_charge) := by
  simp only [State.update]
  ring

theorem State.iter_tau (s : State) (dt : ℝ) (n : Nat) : (s.iter dt n).tau = s.tau := by
  induction n with
  | zero => rfl
  | succ n ih => simp [State.iter, State.update_tau, ih]

theorem State.iter_target (s : State) (dt : ℝ) (n : Nat) :
    (s.iter dt n).target_charge = s.target_charge := by
  induction n with
  | zero => rfl
  | succ n ih => simp [State.iter, State.update_target, ih]

/-- Closed form of the iterated filter: the defect after `n` steps is the
initial defect scaled by `exp (-dt / tau) ^ n`. -/
theorem State.iter_charge_closed (s : State) (dt : ℝ) (n : Nat) :
    (s.iter dt n).charge - s.target_charge =
      Real.exp (-dt / s.tau) ^ n * (s.charge - s.target_charge) := by
  induction n with
  | zero => simp [State.iter]
  | succ n ih =>
    have h := State.update_charge_sub_target (s.iter dt n) dt
    rw [State.iter_tau, State.iter_target] at h
    calc (s.iter dt (n + 1)).charge - s.target_charge
        = Real.exp (-dt / s.tau) * ((s.iter dt n).charge - s.target_charge) := h
      _ = Real.exp (-dt / s.tau) ^ (n + 1) * (s.charge - s.target_charge) := by
          rw [ih]; ring

/-- C3.  The segment charge update with elapsed time `dt` computes the new
charge as `target*alpha + charge*(1-alpha)` with `alpha = 1 - exp(-dt/tau)`;
for `tau > 0` and `dt > 0` each update moves the charge strictly toward the
target (the new charge lies strictly between the old charge and the target
whenever they differ), and the iterates with constant `dt` and target
converge monotonically to the target. -/
theorem claim_C3_charge_filter (s : State) (dt : ℝ)
    (htau : 0 < s.tau) (hdt : 0 < dt) :
    ((s.update dt).charge =
        s.target_charge * (1 - Real.exp (-dt / s.tau))
          + s.charge * (1 - (1 - Real.exp (-dt / s.tau))))
    ∧ (s.charge < s.target_charge →
        s.charge < (s.update dt).charge ∧ (s.update dt).charge < s.target_charge)
    ∧ (s.target_charge < s.charge →
        s.target_charge < (s.update dt).charge ∧ (s.update dt).charge < s.charge)
    ∧ (s.charge = s.target_charge → (s.update dt).charge = s.target_charge)
    ∧ (s.charge ≤ s.target_charge → Monotone (fun n => (s.iter dt n).charge))
    ∧ (s.target_charge ≤ s.charge → Antitone (fun n => (s.iter dt n).charge))
    ∧ Filter.Tendsto (fun n => (s.iter dt n).charge) Filter.atTop
        (nhds s.target_charge) := by
  have hr0 : 0 < Real.exp (-dt / s.tau) := Real.exp_pos _
  have hr1 : Real.exp (-dt / s.tau) < 1 := by
    rw [Real.exp_lt_one_iff, neg_div]
    have : 0 < dt / s.tau := div_pos hdt htau
    linarith
  have hstep : (s.update dt).charge - s.target_charge =
      Real.exp (-dt / s.tau) * (s.charge - s.target_charge) :=
    State.update_charge_sub_target s dt
  have hclosed : ∀ n, (s.iter dt n).charge =
      s.target_charge + Real.exp (-dt / s.tau) ^ n * (s.charge - s.target_charge) := by
    intro n
    have := State.iter_charge_closed s dt n
    linarith
  refine ⟨State.update_charge_eq s dt, ?_, ?_, ?_, ?_, ?_, ?_⟩
  · intro h
    constructor
    · nlinarith
    · nlinarith
  · intro h
    constructor
    · nlinarith
    · nlinarith
  · intro h
    have : s.charge - s.target_charge = 0 := by linarith
    nlinarith
  · intro h
    apply monotone_nat_of_le_succ
    intro n
    rw [hclosed n, hclosed (n + 1)]
    have hpow : Real.exp (-dt / s.tau) ^ (n + 1) ≤ Real.exp (-dt / s.tau) ^ n :=
      pow_le_pow_of_le_one hr0.le hr1.le (Nat.le_succ n)
    nlinarith
  · intro h
    apply antitone_nat_of_succ_le
    intro n
    rw [hclosed n, hclosed (n + 1)]
    have hpow : Real.exp (-dt / s.tau) ^ (n + 1) ≤ Real.exp (-dt / s.tau) ^ n :=
      pow_le_pow_of_le_one hr0.le hr1.le (Nat.le_succ n)
    nlinarith
  · have hpow : Filter.Tendsto (fun n : ℕ => Real.exp (-dt / s.tau) ^ n)
        Filter.atTop (nhds 0) :=
      tendsto_pow_atTop_nhds_zero_of_lt_one hr0.le hr1
    have hmain : Filter.Tendsto
        (fun n : ℕ => s.target_charge
          + Real.exp (-dt / s.tau) ^ n * (s.charge - s.target_charge))
        Filter.atTop (nhds (s.target_charge + 0 * (s.charge - s.target_charge))) :=
      Filter.Tendsto.const_add _ (hpow.mul_const _)
    rw [zero_mul, add_zero] at hmain
    exact hmain.congr (fun n => (hclosed n).symm)

/-- Witness for C3 at the default state (charge 1, target 0, tau 2) and
`dt = 1`. -/
theorem claim_C3_charge_filter_witness :
    (0:ℝ) < State.default.tau ∧ (0:ℝ) < 1 ∧
    Filter.Tendsto (fun n => (State.default.iter 1 n).charge) Filter.atTop
      (nhds State.default.target_charge) :=
  ⟨by norm_num [State.default], by norm_num,
    (claim_C3_charge_filter State.default 1 (by norm_num [State.default])
      (by norm_num)).2.2.2.2.2.2⟩

/-! ## Geometry and morphology data model (`ℚ`-valued) -/

/-- A 2-d vector / position.  `f32` coordinates are modelled over `ℚ`. -/
structure Vec2 where
  x : ℚ
  y : ℚ
deriving DecidableEq, Repr

/-- Componentwise scaling of a mesh vertex by a radius, as in
`p1.x * radius, p1.y * radius` in the source. -/
def Vec2.scale (v : Vec2) (r : ℚ) : Vec2 := ⟨v.x * r, v.y * r⟩

def Vec2.zero : Vec2 := ⟨0, 0⟩

instance : Add Vec2 := ⟨fun a b => ⟨a.x + b.x, a.y + b.y⟩⟩
instance : Sub Vec2 := ⟨fun a b => ⟨a.x - b.x, a.y - b.y⟩⟩

/-- An object transform: position, angle, scale (`core::geometry`). -/
structure Transform where
  position : Vec2
  angle : ℚ
  scale : ℚ
deriving DecidableEq, Repr

/-- `Transform::with_position(p)`. -/
def Transform.with_position (p : Vec2) : Transform :=
  { position := p, angle := 0, scale := 1 }

/-- An axis-aligned rectangle (`core::geometry::Rect`), the world extent. -/
structure Rect where
  min : Vec2
  max : Vec2
deriving DecidableEq, Repr

/-- Mesh winding order (`obj::Winding`). -/
inductive Winding where
  | CW
  | CCW
deriving DecidableEq, Repr

/-- Shape descriptors (`obj::Shape`).  Modelled from the spec: the `obj`
module is not among the sources; the variants and their parameters are the
ones `physics.rs` and the spec name (ball, box, star, triangle). -/
inductive Shape where
  | ball (radius : ℚ)
  | box (radius ratio : ℚ)
  | star (radius ratio : ℚ) (n : Nat)
  | triangle (radius : ℚ)
deriving DecidableEq, Repr

/-- `Shape::radius()`. -/
def Shape.radius : Shape → ℚ
  | .ball r => r
  | .box r _ => r
  | .star r _ _ => r
  | .triangle r => r

/-- A mesh (`obj::Mesh`): shape descriptor, unit-scale ring vertices, and
winding.  Modelled from the spec: `obj` is not among the sources. -/
structure Mesh where
  shape : Shape
  vertices : List Vec2
  winding : Winding
deriving DecidableEq, Repr

/-- `Mesh::from_shape` keeps the shape; the vertex ring is produced by the
external tessellator, which we take as a parameter. -/
def Mesh.from_shape (shape : Shape) (vertices : List Vec2) (winding : Winding) : Mesh :=
  { shape := shape, vertices := vertices, winding := winding }

/-- A physical material (`obj::Material`). -/
structure Material where
  density : ℚ
  restitution : ℚ
  friction : ℚ
deriving DecidableEq, Repr

/-- `Material::default()` with the density field overridden by the caller;
the default restitution/friction values are opaque constants of the missing
`obj` module, modelled as zero. -/
def Material.with_density (density : ℚ) : Material :=
  { density := density, restitution := 0, friction := 0 }

/-- An attachment of a limb to an upstream limb (`world::Attachment`):
index of the parent and the parent-mesh vertex used as anchor. -/
structure Attachment where
  index : Nat
  attachment_point : Nat
deriving DecidableEq, Repr

/-- A limb (`src/app/world.rs`, `Limb`), extended with the `attached_to`
field that `physics.rs` reads (present in the `backend::world` version of
the type, which is not among the sources). -/
structure Limb where
  transform : Transform
  mesh : Mesh
  material : Material
  state : State
  attached_to : Option Attachment

/-- `Limb::transform()` (the `Transformable` impl). -/
def Limb.transformOf (l : Limb) : Transform := l.transform

/-- `Limb::transform_to(t)`. -/
def Limb.transform_to (l : Limb) (t : Transform) : Limb := { l with transform := t }

/-- A creature (`src/app/world.rs`, `Creature`): an id and its limbs. -/
structure Creature where
  id : Nat
  limbs : List Limb

/-- `Creature::transform()` unwraps the first limb; the `unwrap` is modelled
by an `Option` so that the no-panic claim is statable. -/
def Creature.transformOf (c : Creature) : Option Transform :=
  c.limbs.head?.map Limb.transformOf

/-- `Creature::transform_to(t)` writes the first limb's transform (again via
`unwrap`, modelled as an `Option` result). -/
def Creature.transform_to (c : Creature) (t : Transform) : Option Creature :=
  match c.limbs with
  | [] => none
  | l :: ls => some { c with limbs := l.transform_to t :: ls }

/-! ## `Flock::new_creature` (`src/app/world.rs`) -/

/-- The flock: the id counter and the creature registry.  The `HashMap` is
modelled as an association list. -/
structure Flock where
  last_id : Nat
  creatures : List (Nat × Creature)

def Flock.new : Flock := { last_id := 0, creatures := [] }

/-- `Flock::next_id()`. -/
def Flock.next_id (f : Flock) : Flock × Nat :=
  ({ f with last_id := f.last_id + 1 }, f.last_id + 1)

/-- `Flock::new_creature(shape, initial_pos, final_charge)`.  The random
draws (`rng.gen`) for the material density and the initial charge, and the
tessellated vertex ring of the mesh, are passed as parameters. -/
def Flock.new_creature (f : Flock) (shape : Shape) (initial_pos : Vec2)
    (final_charge : ℝ) (rngDensity : ℚ) (rngCharge : ℝ) (vertices : List Vec2)
    (winding : Winding) : Flock × Nat :=
  let (f, id) := f.next_id
  let material := Material.with_density (rngDensity * 1 + 1)
  let state := State.with_charge rngCharge final_charge
  let arm1 : Limb :=
    { transform := Transform.with_position (initial_pos + Vec2.mk 1 0)
      mesh := Mesh.from_shape shape vertices winding
      material := material
      state := state
      attached_to := none }
  let arm2 : Limb :=
    { transform := Transform.with_position (initial_pos - Vec2.mk 1 0)
      mesh := Mesh.from_shape shape vertices winding
      material := material
      state := state
      attached_to := none }
  let body : Limb :=
    { transform := Transform.with_position initial_pos
      mesh := Mesh.from_shape shape vertices winding
      material := material
      state := state
      attached_to := none }
  let creature : Creature := { id := id, limbs := [body, arm1, arm2] }
  ({ f with creatures := f.creatures ++ [(id, creature)] }, id)

/-- C10.  Every creature built by `Flock::new_creature` has exactly three
limbs — the body at the initial position and two arms offset by plus and
minus `(1, 0)` — sharing one material and one initial charge state; hence
its limb list is non-empty and `Creature::transform` / `transform_to`
(which unwrap the first limb) never panic on it. -/
theorem claim_C10_new_creature_three_limbs
    (f : Flock) (shape : Shape) (initial_pos : Vec2) (final_charge : ℝ)
    (rngDensity : ℚ) (rngCharge : ℝ) (vertices : List Vec2) (winding : Winding) :
    ∃ c : Creature,
      (Flock.new_creature f shape initial_pos final_charge rngDensity rngCharge
          vertices winding).1.creatures.getLast? =
        some ((Flock.new_creature f shape initial_pos final_charge rngDensity
          rngCharge vertices winding).2, c)
      ∧ c.limbs.length = 3
      ∧ c.limbs.map (fun l => l.transform.position) =
          [initial_pos, initial_pos + Vec2.mk 1 0, initial_pos - Vec2.mk 1 0]
      ∧ (∀ l ∈ c.limbs, l.material = Material.with_density (rngDensity * 1 + 1))
      ∧ (∀ l ∈ c.limbs, l.state = State.with_charge rngCharge final_charge)
      ∧ c.limbs ≠ []
      ∧ c.transformOf.isSome = true
      ∧ (∀ t : Transform, (c.transform_to t).isSome = true) := by
  classical
  refine ⟨{ id := f.last_id + 1,
            limbs := [{ transform := Transform.with_position initial_pos
                        mesh := Mesh.from_shape shape vertices winding
                        material := Material.with_density (rngDensity * 1 + 1)
                        state := State.with_charge rngCharge final_charge
                        attached_to := none },
                      { transform := Transform.with_position
                          (initial_pos + Vec2.mk 1 0)
                        mesh := Mesh.from_shape shape vertices winding
                        material := Material.with_density (rngDensity * 1 + 1)
                        state := State.with_charge rngCharge final_charge
                        attached_to := none },
                      { transform := Transform.with_position
                          (initial_pos - Vec2.mk 1 0)
                        mesh := Mesh.from_shape shape vertices winding
                        material := Material.with_density (rngDensity * 1 + 1)
                        state := State.with_charge rngCharge final_charge
                        attached_to := none }] }, ?_, rfl, rfl, ?_, ?_, ?_, rfl,
          fun t => rfl⟩
  · simp [Flock.new_creature, Flock.next_id]
  · intro l hl
    simp only [List.mem_cons, List.not_mem_nil, or_false] at hl
    rcases hl with h | h | h <;> subst h <;> rfl
  · intro l hl
    simp only [List.mem_cons, List.not_mem_nil, or_false] at hl
    rcases hl with h | h | h <;> subst h <;> rfl
  · simp

/-! ## `CreatureRefs` (`src/app/world.rs`) -/

/-- The compact cross-reference key `CreatureRefs`.  `limb_index` and
`bone_index` are `u8` in the source; the `as u8` casts at the call sites are
modelled as `% 256`. -/
structure CreatureRefs where
  creature_id : Nat
  limb_index : Nat
  bone_index : Nat
deriving DecidableEq, Repr

/-- `CreatureRefs::default()`: the out-of-range sentinel. -/
def CreatureRefs.sentinel : CreatureRefs :=
  { creature_id := 0xdeadbeef, limb_index := 0xff, bone_index := 0xff }

/-- `CreatureRefs::with_id(id)`. -/
def CreatureRefs.with_id (id : Nat) : CreatureRefs :=
  { CreatureRefs.sentinel with creature_id := id }

/-- `CreatureRefs::with_limb(id, limb_index)`. -/
def CreatureRefs.with_limb (id limb_index : Nat) : CreatureRefs :=
  { CreatureRefs.sentinel with creature_id := id, limb_index := limb_index }

/-- `CreatureRefs::with_bone(id, limb_index, bone_index)`. -/
def CreatureRefs.with_bone (id limb_index bone_index : Nat) : CreatureRefs :=
  { creature_id := id, limb_index := limb_index, bone_index := bone_index }

/-! ## The Box2D capability (`wrapped2d::b2`), modelled as explicit state -/

/-- A fixture shape handed to the physics capability: a circle
(`CircleShape`), a box (`PolygonShape::set_as_box`), or an explicit polygon
(`PolygonShape::set`). -/
inductive FixtureShape where
  | circle (radius : ℚ)
  | boxAsBox (half_width half_height : ℚ)
  | polygon (points : List Vec2)
deriving DecidableEq, Repr

/-- The material part of a `b2::FixtureDef`. -/
structure FixtureDef where
  density : ℚ
  restitution : ℚ
  friction : ℚ
deriving DecidableEq, Repr

/-- A created body: `b2::BodyDef` data plus its `CreatureRefs` user data. -/
structure BodyRec where
  dynamic : Bool
  angle : ℚ
  position : Vec2
  refs : CreatureRefs
deriving DecidableEq, Repr

/-- A created fixture: owning body handle, shape, material and user data. -/
structure FixtureRec where
  body : Nat
  shape : FixtureShape
  fixture_def : FixtureDef
  refs : CreatureRefs
deriving DecidableEq, Repr

/-- A created revolute joint (`b2::RevoluteJointDef`). -/
structure JointRec where
  medial : Nat
  distal : Nat
  local_anchor_a : Vec2
  local_anchor_b : Vec2
  collide_connected : Bool
deriving DecidableEq, Repr

/-- The Box2D world, modelled as the lists of handles it has created.
A body handle is the body's index in creation order. -/
structure B2World where
  bodies : List BodyRec
  fixtures : List FixtureRec
  joints : List JointRec
deriving Repr

def B2World.empty : B2World := { bodies := [], fixtures := [], joints := [] }

/-- `world.create_body_with(b_def, refs)`: appends the body and returns its
handle. -/
def B2World.create_body_with (w : B2World) (b : BodyRec) : B2World × Nat :=
  ({ w with bodies := w.bodies ++ [b] }, w.bodies.length)

/-- `body.create_fixture_with(shape, f_def, refs)` on the body `handle`. -/
def B2World.create_fixture_with (w : B2World) (handle : Nat) (shape : FixtureShape)
    (f_def : FixtureDef) (refs : CreatureRefs) : B2World :=
  { w with fixtures := w.fixtures ++
      [{ body := handle, shape := shape, fixture_def := f_def, refs := refs }] }

/-- `world.create_joint_with(joint, ())`. -/
def B2World.create_joint_with (w : B2World) (j : JointRec) : B2World :=
  { w with joints := w.joints ++ [j] }

/-! ## `PhysicsSystem::build_fixtures` (`src/backend/systems/physics.rs`) -/

/-- The `JointRef` record threaded from `build_fixtures` to `build_joints`. -/
structure JointRef where
  refs : CreatureRefs
  handle : Nat
  mesh : Mesh
  attachment : Option Attachment

/-- The four quad points of the `i`-th star fixture: the fan starts at the
shape's centroid `(0,0)` and the three ring vertices are permuted by the
mesh winding, exactly as in the `Shape::Star` arm of `build_fixtures`.
Rust's panicking index `p[i]` is modelled with a zero default (the indices
are in range for a well-formed 2n-vertex star ring). -/
def starQuadPoints (mesh : Mesh) (radius : ℚ) (n i : Nat) : List Vec2 :=
  let p := mesh.vertices
  let i1 := i * 2 + 1
  let i2 := i * 2
  let i3 := (i * 2 + n * 2 - 1) % (n * 2)
  let q :=
    match mesh.winding with
    | .CW => (p.getD i1 Vec2.zero, p.getD i2 Vec2.zero, p.getD i3 Vec2.zero)
    | .CCW => (p.getD i1 Vec2.zero, p.getD i3 Vec2.zero, p.getD i2 Vec2.zero)
  [Vec2.zero, q.1.scale radius, q.2.1.scale radius, q.2.2.scale radius]

/-- The three points of a `Shape::Triangle` fixture, winding-permuted as in
the source. -/
def trianglePoints (mesh : Mesh) (radius : ℚ) : List Vec2 :=
  let p := mesh.vertices
  let q :=
    match mesh.winding with
    | .CW => (p.getD 0 Vec2.zero, p.getD 2 Vec2.zero, p.getD 1 Vec2.zero)
    | .CCW => (p.getD 0 Vec2.zero, p.getD 1 Vec2.zero, p.getD 2 Vec2.zero)
  [q.1.scale radius, q.2.1.scale radius, q.2.2.scale radius]

/-- The body of the `limbs.enumerate().map(...)` closure of
`build_fixtures`: creates one dynamic body for the limb and its fixtures,
returning the `JointRef`. -/
def buildLimb (world : B2World) (object_id limb_index : Nat) (limb : Limb) :
    B2World × JointRef :=
  let material := limb.material
  let f_def : FixtureDef :=
    { density := material.density, restitution := material.restitution,
      friction := material.friction }
  let transform := limb.transformOf
  let refs := CreatureRefs.with_limb object_id (limb_index % 256)
  let wh := world.create_body_with
    { dynamic := true, angle := transform.angle,
      position := transform.position, refs := refs }
  let world := wh.1
  let handle := wh.2
  let mesh := limb.mesh
  let attached_to := limb.attached_to
  let world :=
    match mesh.shape with
    | .ball radius =>
        world.create_fixture_with handle (.circle radius) f_def refs
    | .box radius ratio =>
        world.create_fixture_with handle (.boxAsBox (radius * ratio) radius) f_def refs
    | .star radius _ n =>
        (List.range n).foldl (fun w i =>
          w.create_fixture_with handle (.polygon (starQuadPoints mesh radius n i))
            f_def (CreatureRefs.with_bone object_id (limb_index % 256) (i % 256))) world
    | .triangle radius =>
        world.create_fixture_with handle (.polygon (trianglePoints mesh radius)) f_def refs
  (world, { refs := refs, handle := handle, mesh := mesh, attachment := attached_to })

/-- The enumerated traversal of the creature's limbs, threading the world. -/
def buildFixturesAux (object_id : Nat) (world : B2World) (limb_index : Nat) :
    List Limb → B2World × List JointRef
  | [] => (world, [])
  | l :: ls =>
    let wj := buildLimb world object_id limb_index l
    let rest := buildFixturesAux object_id wj.1 (limb_index + 1) ls
    (rest.1, wj.2 :: rest.2)

/-- `PhysicsSystem::build_fixtures(world, creature)`. -/
def build_fixtures (world : B2World) (creature : Creature) : B2World × List JointRef :=
  buildFixturesAux creature.id world 0 creature.limbs

/-- `PhysicsSystem::build_joints(world, joint_refs)`. -/
def build_joints (world : B2World) (joint_refs : List JointRef) : B2World :=
  joint_refs.foldl (fun w jr =>
    match jr.attachment with
    | some attachment =>
      let upstream := joint_refs.getD attachment.index
        { refs := CreatureRefs.sentinel, handle := 0,
          mesh := { shape := .ball 0, vertices := [], winding := .CCW },
          attachment := none }
      let v0 := (upstream.mesh.vertices.getD attachment.attachment_point Vec2.zero).scale
        upstream.mesh.shape.radius
      let v1 := (jr.mesh.vertices.getD 0 Vec2.zero).scale jr.mesh.shape.radius
      w.create_joint_with
        { medial := upstream.handle, distal := jr.handle,
          local_anchor_a := v0, local_anchor_b := v1, collide_connected := true }
    | none => w) world

/-! ### Closed forms for `build_fixtures` -/

/-- The single body `buildLimb` creates for a limb. -/
def limbBody (object_id limb_index : Nat) (limb : Limb) : BodyRec :=
  { dynamic := true, angle := limb.transform.angle,
    position := limb.transform.position,
    refs := CreatureRefs.with_limb object_id (limb_index % 256) }

/-- The fixture material derived from the limb material. -/
def limbFixtureDef (limb : Limb) : FixtureDef :=
  { density := limb.material.density, restitution := limb.material.restitution,
    friction := limb.material.friction }

/-- The fixtures `buildLimb` creates for a limb whose body got `handle`. -/
def limbFixtures (object_id handle limb_index : Nat) (limb : Limb) : List FixtureRec :=
  let f_def := limbFixtureDef limb
  let refs := CreatureRefs.with_limb object_id (limb_index % 256)
  match limb.mesh.shape with
  | .ball radius =>
      [{ body := handle, shape := .circle radius, fixture_def := f_def, refs := refs }]
  | .box radius ratio =>
      [{ body := handle, shape := .boxAsBox (radius * ratio) radius,
         fixture_def := f_def, refs := refs }]
  | .star radius _ n =>
      (List.range n).map (fun i =>
        { body := handle, shape := .polygon (starQuadPoints limb.mesh radius n i),
          fixture_def := f_def,
          refs := CreatureRefs.with_bone object_id (limb_index % 256) (i % 256) })
  | .triangle radius =>
      [{ body := handle, shape := .polygon (trianglePoints limb.mesh radius),
         fixture_def := f_def, refs := refs }]

theorem foldl_create_fixture (w : B2World) (l : List Nat)
    (mk : Nat → FixtureRec) :
    (l.foldl (fun w i => { w with fixtures := w.fixtures ++ [mk i] }) w) =
      { w with fixtures := w.fixtures ++ l.map mk } := by
  induction l generalizing w with
  | nil => simp
  | cons a l ih => simp [List.foldl_cons, ih]

theorem buildLimb_spec (world : B2World) (object_id limb_index : Nat) (limb : Limb) :
    buildLimb world object_id limb_index limb =
      ({ world with
          bodies := world.bodies ++ [limbBody object_id limb_index limb]
          fixtures := world.fixtures ++
            limbFixtures object_id world.bodies.length limb_index limb },
        { refs := CreatureRefs.with_limb object_id (limb_index % 256),
          handle := world.bodies.length, mesh := limb.mesh,
          attachment := limb.attached_to }) := by
  unfold buildLimb limbBody limbFixtures limbFixtureDef
  cases h : limb.mesh.shape with
  | ball radius =>
      simp [B2World.create_body_with, B2World.create_fixture_with, Limb.transformOf, h]
  | box radius ratio =>
      simp [B2World.create_body_with, B2World.create_fixture_with, Limb.transformOf, h]
  | star radius ratio n =>
      simp only [B2World.create_body_with, B2World.create_fixture_with,
        Limb.transformOf, h]
      rw [foldl_create_fixture]
  | triangle radius =>
      simp [B2World.create_body_with, B2World.create_fixture_with, Limb.transformOf, h]

/-- The bodies created for the limbs starting at enumeration index `k`. -/
def ghostBodies (object_id k : Nat) : List Limb → List BodyRec
  | [] => []
  | l :: ls => limbBody object_id k l :: ghostBodies object_id (k + 1) ls

/-- The fixtures created for the limbs starting at enumeration index `k`
when the next body handle is `b`. -/
def ghostFixtures (object_id k b : Nat) : List Limb → List FixtureRec
  | [] => []
  | l :: ls => limbFixtures object_id b k l ++ ghostFixtures object_id (k + 1) (b + 1) ls

/-- The joint refs returned for the limbs starting at index `k`, handles
starting at `b`. -/
def ghostJointRefs (object_id k b : Nat) : List Limb → List JointRef
  | [] => []
  | l :: ls =>
    { refs := CreatureRefs.with_limb object_id (k % 256), handle := b,
      mesh := l.mesh, attachment := l.attached_to } ::
      ghostJointRefs object_id (k + 1) (b + 1) ls

theorem buildFixturesAux_spec (object_id : Nat) (ls : List Limb) :
    ∀ (world : B2World) (k : Nat),
      buildFixturesAux object_id world k ls =
        ({ world with
            bodies := world.bodies ++ ghostBodies object_id k ls
            fixtures := world.fixtures ++
              ghostFixtures object_id k world.bodies.length ls },
          ghostJointRefs object_id k world.bodies.length ls) := by
  induction ls with
  | nil => intro world k; simp [buildFixturesAux, ghostBodies, ghostFixtures, ghostJointRefs]
  | cons l ls ih =>
      intro world k
      simp only [buildFixturesAux, ghostBodies, ghostFixtures, ghostJointRefs]
      rw [buildLimb_spec, ih]
      simp

theorem build_fixtures_spec (world : B2World) (c : Creature) :
    build_fixtures world c =
      ({ world with
          bodies := world.bodies ++ ghostBodies c.id 0 c.limbs
          fixtures := world.fixtures ++
            ghostFixtures c.id 0 world.bodies.length c.limbs },
        ghostJointRefs c.id 0 world.bodies.length c.limbs) :=
  buildFixturesAux_spec c.id c.limbs world 0

theorem ghostBodies_length (object_id : Nat) (ls : List Limb) :
    ∀ k, (ghostBodies object_id k ls).length = ls.length := by
  induction ls with
  | nil => intro k; rfl
  | cons l ls ih => intro k; simp [ghostBodies, ih]

theorem ghostBodies_dynamic (object_id : Nat) (ls : List Limb) :
    ∀ k, ∀ b ∈ ghostBodies object_id k ls, b.dynamic = true := by
  induction ls with
  | nil => intro k b hb; simp [ghostBodies] at hb
  | cons l ls ih =>
      intro k b hb
      simp only [ghostBodies, List.mem_cons] at hb
      rcases hb with h | h
      · subst h; rfl
      · exact ih (k + 1) b h

theorem ghostBodies_refs (object_id : Nat) (ls : List Limb) :
    ∀ k, (ghostBodies object_id k ls).map (fun b => b.refs) =
      (List.range ls.length).map
        (fun j => CreatureRefs.with_limb object_id ((k + j) % 256)) := by
  induction ls with
  | nil => intro k; rfl
  | cons l ls ih =>
      intro k
      simp only [ghostBodies, List.map_cons, List.length_cons,
        List.range_succ_eq_map, List.map_map]
      refine congrArg₂ _ (by simp [limbBody]) ?_
      rw [ih (k + 1)]
      refine List.map_congr_left ?_
      intro j _
      simp only [Function.comp]
      congr 1
      omega

theorem limbFixtures_body (object_id b k : Nat) (l : Limb) :
    ∀ fx ∈ limbFixtures object_id b k l, fx.body = b := by
  intro fx hfx
  unfold limbFixtures at hfx
  cases h : l.mesh.shape <;> rw [h] at hfx <;> simp at hfx
  case ball => subst hfx; rfl
  case box => subst hfx; rfl
  case star =>
    obtain ⟨i, _, hi⟩ := hfx
    subst hi; rfl
  case triangle => subst hfx; rfl

theorem ghostFixtures_body_ge (object_id : Nat) (ls : List Limb) :
    ∀ k b, ∀ fx ∈ ghostFixtures object_id k b ls, b ≤ fx.body := by
  induction ls with
  | nil => intro k b fx hfx; simp [ghostFixtures] at hfx
  | cons l ls ih =>
      intro k b fx hfx
      simp only [ghostFixtures, List.mem_append] at hfx
      rcases hfx with h | h
      · exact (limbFixtures_body object_id b k l fx h).ge
      · exact Nat.le_of_succ_le (ih (k + 1) (b + 1) fx h)

theorem ghostFixtures_filter (object_id : Nat) (ls : List Limb) :
    ∀ k b j l, ls[j]? = some l →
      (ghostFixtures object_id k b ls).filter (fun fx => decide (fx.body = b + j)) =
        limbFixtures object_id (b + j) (k + j) l := by
  induction ls with
  | nil => intro k b j l hj; simp at hj
  | cons hd tl ih =>
      intro k b j l hj
      cases j with
      | zero =>
          simp only [List.getElem?_cons_zero, Option.some.injEq] at hj
          subst hj
          simp only [ghostFixtures, List.filter_append, Nat.add_zero]
          rw [List.filter_eq_self.mpr, List.filter_eq_nil_iff.mpr, List.append_nil]
          · intro fx hfx
            have := ghostFixtures_body_ge object_id tl (k + 1) (b + 1) fx hfx
            simp only [decide_eq_true_eq]
            omega
          · intro fx hfx
            have := limbFixtures_body object_id b k hd fx hfx
            simp [this]
      | succ j =>
          simp only [List.getElem?_cons_succ] at hj
          simp only [ghostFixtures, List.filter_append]
          rw [List.filter_eq_nil_iff.mpr, List.nil_append]
          · have harith : b + (j + 1) = (b + 1) + j := by omega
            have harith2 : k + (j + 1) = (k + 1) + j := by omega
            rw [harith, harith2]
            exact ih (k + 1) (b + 1) j l hj
          · intro fx hfx
            have := limbFixtures_body object_id b k hd fx hfx
            simp only [decide_eq_true_eq, this]
            omega

/-- C9.  `build_fixtures` creates exactly one dynamic body per limb, body
tags `CreatureRefs{agent, limb}` are unique across the agent's handles
(for up to 256 limbs, the range of the `u8` cast), and a star limb with `n`
points gets exactly `n` fixtures on its body, each a 4-point polygon fan
starting at the centroid with winding-selected ring order, each tagged with
a distinct `CreatureRefs{agent, limb, i}`. -/
theorem claim_C9_build_fixtures (w0 : B2World) (c : Creature)
    (hlen : c.limbs.length ≤ 256) :
    ((build_fixtures w0 c).1.bodies.drop w0.bodies.length).length = c.limbs.length
    ∧ (∀ b ∈ (build_fixtures w0 c).1.bodies.drop w0.bodies.length, b.dynamic = true)
    ∧ ((build_fixtures w0 c).1.bodies.drop w0.bodies.length).map (fun b => b.refs) =
        (List.range c.limbs.length).map (fun j => CreatureRefs.with_limb c.id j)
    ∧ (((build_fixtures w0 c).1.bodies.drop w0.bodies.length).map
        (fun b => b.refs)).Pairwise (· ≠ ·)
    ∧ ∀ k l radius ratio n, c.limbs[k]? = some l →
        l.mesh.shape = .star radius ratio n → n ≤ 256 →
        (((build_fixtures w0 c).1.fixtures.drop w0.fixtures.length).filter
            (fun fx => decide (fx.body = w0.bodies.length + k))) =
          (List.range n).map (fun i =>
            { body := w0.bodies.length + k,
              shape := .polygon (starQuadPoints l.mesh radius n i),
              fixture_def := limbFixtureDef l,
              refs := CreatureRefs.with_bone c.id (k % 256) i })
        ∧ (((build_fixtures w0 c).1.fixtures.drop w0.fixtures.length).filter
            (fun fx => decide (fx.body = w0.bodies.length + k))).length = n
        ∧ ((((build_fixtures w0 c).1.fixtures.drop w0.fixtures.length).filter
            (fun fx => decide (fx.body = w0.bodies.length + k))).map
              (fun fx => fx.refs)).Pairwise (· ≠ ·)
        ∧ ∀ fx ∈ ((build_fixtures w0 c).1.fixtures.drop w0.fixtures.length).filter
            (fun fx => decide (fx.body = w0.bodies.length + k)),
            ∃ pts, fx.shape = .polygon pts ∧ pts.length = 4 ∧
              pts.head? = some Vec2.zero := by
  rw [build_fixtures_spec]
  simp only [List.drop_left]
  have hrefs : (ghostBodies c.id 0 c.limbs).map (fun b => b.refs) =
      (List.range c.limbs.length).map (fun j => CreatureRefs.with_limb c.id j) := by
    rw [ghostBodies_refs]
    refine List.map_congr_left ?_
    intro j hj
    have hj' : j < 256 := lt_of_lt_of_le (List.mem_range.mp hj) hlen
    congr 1
    omega
  refine ⟨ghostBodies_length c.id c.limbs 0,
    ghostBodies_dynamic c.id c.limbs 0, hrefs, ?_, ?_⟩
  · rw [hrefs]
    rw [List.pairwise_map]
    refine (List.pairwise_lt_range _).imp ?_
    intro a b hab
    simp only [ne_eq, CreatureRefs.with_limb, CreatureRefs.sentinel,
      CreatureRefs.mk.injEq]
    intro h
    omega
  · intro k l radius ratio n hk hshape hn
    have hfilter := ghostFixtures_filter c.id c.limbs 0 w0.bodies.length k l hk
    simp only [Nat.zero_add] at hfilter
    have hfix : limbFixtures c.id (w0.bodies.length + k) k l =
        (List.range n).map (fun i =>
          { body := w0.bodies.length + k,
            shape := .polygon (starQuadPoints l.mesh radius n i),
            fixture_def := limbFixtureDef l,
            refs := CreatureRefs.with_bone c.id (k % 256) i }) := by
      unfold limbFixtures
      rw [hshape]
      refine List.map_congr_left ?_
      intro i hi
      have hi' : i < 256 := lt_of_lt_of_le (List.mem_range.mp hi) hn
      rw [Nat.mod_eq_of_lt hi']
    rw [hfilter, hfix]
    refine ⟨rfl, by simp, ?_, ?_⟩
    · rw [List.map_map, List.pairwise_map]
      refine (List.pairwise_lt_range _).imp ?_
      intro a b hab
      simp only [Function.comp, ne_eq, CreatureRefs.with_bone, CreatureRefs.mk.injEq]
      intro h
      omega
    · intro fx hfx
      simp only [List.mem_map, List.mem_range] at hfx
      obtain ⟨i, _, hi⟩ := hfx
      subst hi
      exact ⟨starQuadPoints l.mesh radius n i, rfl, rfl, rfl⟩

/-- A concrete 2-point star limb used to witness C9. -/
def witnessStarMesh : Mesh :=
  { shape := .star 2 (1/2) 2,
    vertices := [⟨1, 0⟩, ⟨0, 1⟩, ⟨-1, 0⟩, ⟨0, -1⟩],
    winding := .CCW }

def witnessLimb : Limb :=
  { transform := Transform.with_position ⟨0, 0⟩,
    mesh := witnessStarMesh,
    material := Material.with_density 1,
    state := State.default,
    attached_to := none }

def witnessCreature : Creature := { id := 7, limbs := [witnessLimb] }

theorem claim_C9_build_fixtures_witness :
    witnessCreature.limbs.length ≤ 256
    ∧ witnessCreature.limbs[0]? = some witnessLimb
    ∧ witnessLimb.mesh.shape = .star 2 (1/2) 2
    ∧ (((build_fixtures B2World.empty witnessCreature).1.fixtures.drop
          B2World.empty.fixtures.length).filter
        (fun fx => decide (fx.body = B2World.empty.bodies.length + 0))).length = 2 :=
  ⟨by decide, rfl, rfl,
    ((claim_C9_build_fixtures B2World.empty witnessCreature (by decide)).2.2.2.2
      0 witnessLimb 2 (1/2) 2 rfl rfl (by decide)).2.1⟩

/-! ## `PhysicsSystem::update` and `to_world` (`src/backend/systems/physics.rs`) -/

/-- A Box2D body as seen through the iteration in `PhysicsSystem::update` /
`to_world`: its handle, user data, position, angle, world center and the
world image of the local point `(0,1)` ("facing"). -/
structure PhysBody where
  handle : Nat
  refs : CreatureRefs
  position : Vec2
  angle : ℚ
  world_center : Vec2
  facing : Vec2
deriving DecidableEq, Repr

/-- The `PhysicsSystem` state: policy edge, remote target, the physics
world's bodies, the handle map and the accumulated dropped keys. -/
structure PhysicsSystem where
  edge : ℚ
  remote : Vec2
  bodies : List PhysBody
  handles : List (CreatureRefs × Nat)
  dropped : List CreatureRefs
deriving Repr

/-- `PhysicsSystem::new()`. -/
def PhysicsSystem.new : PhysicsSystem :=
  { edge := 0, remote := ⟨0, 0⟩, bodies := [], handles := [], dropped := [] }

/-- `PhysicsSystem::drop_below(edge)`. -/
def PhysicsSystem.drop_below (s : PhysicsSystem) (edge : ℚ) : PhysicsSystem :=
  { s with edge := edge }

/-- The `BodyForce` enum local to `PhysicsSystem::update`. -/
inductive BodyForce where
  | Parallel (handle : Nat) (center facing : Vec2)
  | Perpendicular (handle : Nat) (center : Vec2)

/-- `PhysicsSystem::update(dt)`.  The external capabilities — cgmath's
`normalize_to`, Box2D's `apply_force` and `step` — are parameters; the
source computes steering forces by `limb_index` role and then steps the
world.  Note: the source never reads `self.edge` nor writes `self.dropped`
here. -/
def PhysicsSystem.update
    (normalize_to : Vec2 → ℚ → Vec2)
    (apply_force : Nat → Vec2 → Vec2 → List PhysBody → List PhysBody)
    (stepWorld : ℚ → List PhysBody → List PhysBody)
    (dt : ℚ) (s : PhysicsSystem) : PhysicsSystem :=
  let v := s.bodies.foldl (fun acc b =>
    match b.refs.limb_index with
    | 1 => acc ++ [BodyForce.Perpendicular b.handle b.world_center]
    | 2 => acc ++ [BodyForce.Perpendicular b.handle b.world_center]
    | 3 => acc ++ [BodyForce.Parallel b.handle b.world_center b.facing]
    | 4 => acc ++ [BodyForce.Parallel b.handle b.world_center b.facing]
    | _ => acc) []
  let bodies := v.foldl (fun bodies f =>
    match f with
    | .Perpendicular h center =>
        let v := s.remote - center
        if v ≠ Vec2.zero then
          apply_force h (normalize_to v 10) center bodies
        else bodies
    | .Parallel h center facing =>
        apply_force h ((facing - center).scale 3) center bodies) s.bodies
  { s with bodies := stepWorld dt bodies }

/-- `Flock::kill(id)`: `HashMap::remove` on the registry. -/
def Flock.kill (f : Flock) (id : Nat) : Flock :=
  { f with creatures := f.creatures.filter (fun kv => decide (kv.1 ≠ id)) }

/-- `Flock::get_mut(id)` (lookup part). -/
def Flock.getCreature (f : Flock) (id : Nat) : Option Creature :=
  (f.creatures.find? (fun kv => kv.1 == id)).map (fun kv => kv.2)

/-- Writing back a mutated creature through the registry. -/
def Flock.setCreature (f : Flock) (id : Nat) (c : Creature) : Flock :=
  { f with creatures := f.creatures.map (fun kv => if kv.1 == id then (kv.1, c) else kv) }

/-- `creature.limb_mut(index)` followed by `transform_to` with the scale
preserved, as in the body read-back loop of `to_world`. -/
def Creature.with_limb_transform (c : Creature) (i : Nat) (pos : Vec2) (angle : ℚ) :
    Creature :=
  match c.limbs[i]? with
  | some limb =>
      let scale := limb.transformOf.scale
      let newLimb := limb.transform_to { position := pos, angle := angle, scale := scale }
      { c with limbs := c.limbs.set i newLimb }
  | none => c

/-- The `World` of `src/app/world.rs`: the friends flock. -/
structure AppWorld where
  friends : Flock

/-- One step of the transform write-back loop of `to_world`. -/
def writeBackBody (w : AppWorld) (b : PhysBody) : AppWorld :=
  match w.friends.getCreature b.refs.creature_id with
  | some creature =>
      let updated := creature.with_limb_transform b.refs.limb_index b.position b.angle
      { w with friends := w.friends.setCreature b.refs.creature_id updated }
  | none => w

/-- `PhysicsSystem::to_world(world)`: first kill every dropped creature id
in the registry, then write every body's position/angle back to its limb. -/
def PhysicsSystem.to_world (s : PhysicsSystem) (world : AppWorld) : AppWorld :=
  let world := s.dropped.foldl
    (fun w key => { w with friends := w.friends.kill key.creature_id }) world
  s.bodies.foldl writeBackBody world

theorem kill_keys_mem (f : Flock) (x id : Nat) :
    id ∈ (f.kill x).creatures.map (fun kv => kv.1) ↔
      id ∈ f.creatures.map (fun kv => kv.1) ∧ id ≠ x := by
  simp only [Flock.kill, List.mem_map, List.mem_filter, decide_eq_true_eq]
  constructor
  · rintro ⟨kv, ⟨hkv, hne⟩, hid⟩
    exact ⟨⟨kv, hkv, hid⟩, hid ▸ hne⟩
  · rintro ⟨⟨kv, hkv, hid⟩, hne⟩
    exact ⟨kv, ⟨hkv, hid ▸ hne⟩, hid⟩

theorem killFold_keys_mem (dropped : List CreatureRefs) :
    ∀ (w : AppWorld) (id : Nat),
      id ∈ ((dropped.foldl
          (fun w key => { w with friends := w.friends.kill key.creature_id })
          w).friends.creatures.map (fun kv => kv.1)) ↔
        id ∈ w.friends.creatures.map (fun kv => kv.1) ∧
          id ∉ dropped.map (fun key => key.creature_id) := by
  induction dropped with
  | nil => intro w id; simp
  | cons key rest ih =>
      intro w id
      simp only [List.foldl_cons, List.map_cons, List.mem_cons]
      rw [ih]
      have : id ∈ ({ w with friends := w.friends.kill key.creature_id } :
          AppWorld).friends.creatures.map (fun kv => kv.1) ↔
          id ∈ w.friends.creatures.map (fun kv => kv.1) ∧ id ≠ key.creature_id :=
        kill_keys_mem w.friends key.creature_id id
      rw [this]
      constructor
      · rintro ⟨⟨h1, h2⟩, h3⟩
        refine ⟨h1, ?_⟩
        intro hmem
        rcases hmem with h | h
        · exact h2 h
        · exact h3 h
      · rintro ⟨h1, h2⟩
        refine ⟨⟨h1, fun h => h2 (Or.inl h)⟩, fun h => h2 (Or.inr h)⟩

theorem setCreature_keys (f : Flock) (id : Nat) (c : Creature) :
    (f.setCreature id c).creatures.map (fun kv => kv.1) =
      f.creatures.map (fun kv => kv.1) := by
  simp only [Flock.setCreature, List.map_map]
  refine List.map_congr_left ?_
  intro kv _
  simp only [Function.comp]
  split <;> rfl

theorem writeBackBody_keys (w : AppWorld) (b : PhysBody) :
    (writeBackBody w b).friends.creatures.map (fun kv => kv.1) =
      w.friends.creatures.map (fun kv => kv.1) := by
  unfold writeBackBody
  cases h : w.friends.getCreature b.refs.creature_id with
  | none => rfl
  | some creature => exact setCreature_keys w.friends b.refs.creature_id _

theorem writeBackFold_keys (bodies : List PhysBody) :
    ∀ w : AppWorld,
      (bodies.foldl writeBackBody w).friends.creatures.map (fun kv => kv.1) =
        w.friends.creatures.map (fun kv => kv.1) := by
  induction bodies with
  | nil => intro w; rfl
  | cons b rest ih =>
      intro w
      rw [List.foldl_cons, ih, writeBackBody_keys]

/-- C5, amended.  During `PhysicsSystem::update` no body is ever added to
the `dropped` collection and the policy edge is not consulted (the source
stores the edge but never reads it, and never writes `dropped` in
`update`); the subsequent `to_world` kills in the World's registry exactly
the creature ids collected in `dropped`. -/
theorem claim_C5_amended_dropped_semantics
    (normalize_to : Vec2 → ℚ → Vec2)
    (apply_force : Nat → Vec2 → Vec2 → List PhysBody → List PhysBody)
    (stepWorld : ℚ → List PhysBody → List PhysBody)
    (dt : ℚ) (s : PhysicsSystem) (w : AppWorld) :
    (PhysicsSystem.update normalize_to apply_force stepWorld dt s).dropped = s.dropped
    ∧ (PhysicsSystem.update normalize_to apply_force stepWorld dt s).edge = s.edge
    ∧ ∀ id : Nat,
        id ∈ ((s.to_world w).friends.creatures.map (fun kv => kv.1)) ↔
          id ∈ w.friends.creatures.map (fun kv => kv.1) ∧
            id ∉ s.dropped.map (fun key => key.creature_id) := by
  refine ⟨rfl, rfl, ?_⟩
  intro id
  unfold PhysicsSystem.to_world
  rw [writeBackFold_keys, killFold_keys_mem]

/-- The concrete body below the policy edge used to refute C5 as stated. -/
def cexDropBody : PhysBody :=
  { handle := 0, refs := CreatureRefs.with_limb 1 0, position := ⟨0, -100⟩,
    angle := 0, world_center := ⟨0, -100⟩, facing := ⟨0, -99⟩ }

def cexDropSystem : PhysicsSystem :=
  { edge := 0, remote := ⟨0, 0⟩, bodies := [cexDropBody], handles := [],
    dropped := [] }

/-- C5, counterexample.  A body whose position is below the configured edge
is not added to `dropped` by `update`: the dropped collection stays empty,
refuting the claim that every such body is marked for removal. -/
theorem claim_C5_counterexample :
    cexDropBody.position.y < cexDropSystem.edge
    ∧ cexDropBody ∈ cexDropSystem.bodies
    ∧ (PhysicsSystem.update (fun v _ => v) (fun _ _ _ bs => bs) (fun _ bs => bs)
        (1/60) cexDropSystem).dropped = [] := by
  refine ⟨by norm_num [cexDropBody, cexDropSystem], by simp [cexDropSystem], rfl⟩

/-! ## The alife data model (`backend::world`, modelled from the spec where
the module is not among the sources) -/

/-- Opaque heritable encoding; only equality and cloning are used. -/
abbrev Dna := List Nat

/-- Modelled from the spec: the lifecycle timer of `agent::State` — an age
against an expiry; `is_expired` compares them and `renew` resets the
counter. -/
structure Lifecycle where
  age : ℚ
  ttl : ℚ
deriving DecidableEq, Repr

def Lifecycle.is_expired (l : Lifecycle) : Bool := decide (l.ttl ≤ l.age)

def Lifecycle.renew (l : Lifecycle) : Lifecycle := { l with age := 0 }

/-- Modelled from the spec: `agent::State` — activity flag, energy level,
lifecycle timer, gender, the spore fertilization flag and optional foreign
Dna, and the trajectory history fed by `track_position`.  The `agent`
module is not among the sources. -/
structure AgentState where
  alive : Bool
  energy : ℚ
  lifecycle : Lifecycle
  gender : Bool
  fertilised : Bool
  foreign_dna : Option Dna
  trajectory : List Vec2
deriving DecidableEq, Repr

/-- `State::is_active()`. -/
def AgentState.is_active (s : AgentState) : Bool := s.alive

/-- `State::die()`: the activity flag goes false (and stays false: nothing
sets it back). -/
def AgentState.die (s : AgentState) : AgentState := { s with alive := false }

/-- Modelled from the spec: `State::absorb(e)` credits an eaten resource's
energy into the energy pool. -/
def AgentState.absorb (s : AgentState) (e : ℚ) : AgentState :=
  { s with energy := s.energy + e }

/-- Modelled from the spec: `State::consume(q)` — the per-tick upkeep
drain, proportional subtraction from the energy pool. -/
def AgentState.consume (s : AgentState) (q : ℚ) : AgentState :=
  { s with energy := s.energy - q }

/-- Modelled from the spec: `State::consume_ratio(r)` is a conditional
debit — it succeeds (and debits `r` times the energy) exactly when the
agent can afford to spend that amount. -/
def AgentState.consume_ratio (s : AgentState) (r : ℚ) : Bool × AgentState :=
  if r * s.energy ≤ s.energy then
    (true, { s with energy := s.energy - r * s.energy })
  else (false, s)

/-- Modelled from the spec: `State::renew()` resets the lifecycle counter
(the agent stays alive). -/
def AgentState.renew (s : AgentState) : AgentState :=
  { s with lifecycle := s.lifecycle.renew }

/-- Modelled from the spec: `State::is_fertilised()`. -/
def AgentState.is_fertilised (s : AgentState) : Bool := s.fertilised

/-- Modelled from the spec: `State::fertilise(dna)` sets the foreign Dna
and marks the spore fertilized; a later write overwrites an earlier one. -/
def AgentState.fertilise (s : AgentState) (dna : Dna) : AgentState :=
  { s with fertilised := true, foreign_dna := some dna }

/-- Modelled from the spec: `State::track_position(p)` records the tracker
position into the trajectory history. -/
def AgentState.track_position (s : AgentState) (p : Vec2) : AgentState :=
  { s with trajectory := s.trajectory ++ [p] }

/-- Modelled from the spec: the per-segment state seen by the alife system
— a charge scalar, the `last_touched` back-reference set by contact
detection.  Its own `update(dt)` filter is external to the alife claims and
is passed as a parameter where needed. -/
structure SegState where
  charge : ℚ
  last_touched : Option Nat
deriving DecidableEq, Repr

/-- `SegState::get_charge()`. -/
def SegState.get_charge (s : SegState) : ℚ := s.charge

/-- A body segment as the alife system reads it: transform, shape radius,
role flags and per-segment state (`backend::world::segment`, modelled from
the spec). -/
structure Segment where
  transform : Transform
  radius : ℚ
  flag_mouth : Bool
  flag_storage : Bool
  flag_tracker : Bool
  state : SegState
deriving DecidableEq, Repr

/-- An agent (`backend::world::agent::Agent`): identity, Dna, state and the
segment list (modelled from the spec). -/
structure Agent where
  id : Nat
  dna : Dna
  state : AgentState
  segments : List Segment
deriving DecidableEq, Repr

/-- `agent.gender()`: modelled from the spec as a state flag. -/
def Agent.gender (a : Agent) : Bool := a.state.gender

/-- `agent.last_segment()`: the source unwraps; modelled with a default for
the empty case (the agents built by the generators always have segments). -/
def Agent.last_segment (a : Agent) : Segment :=
  a.segments.getLastD
    { transform := Transform.with_position ⟨0, 0⟩, radius := 0,
      flag_mouth := false, flag_storage := false, flag_tracker := false,
      state := { charge := 0, last_touched := none } }

/-- `agent.transform()`: the first segment's transform (default likewise). -/
def Agent.transformOf (a : Agent) : Transform :=
  (a.segments.headD
    { transform := Transform.with_position ⟨0, 0⟩, radius := 0,
      flag_mouth := false, flag_storage := false, flag_tracker := false,
      state := { charge := 0, last_touched := none } }).transform

/-- `agent.first_segment(flag)` for the TRACKER flag. -/
def Agent.first_tracker (a : Agent) : Option Segment :=
  a.segments.find? (fun s => s.flag_tracker)

/-- An `agent::AgentMap`, modelled as an association list in iteration
order. -/
abbrev AgentMap := List (Nat × Agent)

/-- Lookup in an association map (`HashMap::get`). -/
def mapGet {α : Type} (m : List (Nat × α)) (k : Nat) : Option α :=
  (m.find? (fun kv => kv.1 == k)).map (fun kv => kv.2)

/-- Insert with overwrite (`HashMap::insert`): the previous binding of the
key, if any, is replaced. -/
def mapInsert {α : Type} (m : List (Nat × α)) (k : Nat) (v : α) : List (Nat × α) :=
  m.filter (fun kv => decide (kv.1 ≠ k)) ++ [(k, v)]

/-! ## `AlifeSystem` (`src/backend/systems/alife.rs`) -/

/-- `AlifeSystem::find_eaten_resources`: for every active minion, for every
MOUTH segment whose `last_touched` resolves to a resource, record that
resource's state under the resource id. -/
def find_eaten_resources (minions resources : AgentMap) : List (Nat × AgentState) :=
  minions.foldl (fun eaten kv =>
    if kv.2.state.is_active then
      (kv.2.segments.filter (fun s => s.flag_mouth)).foldl (fun eaten segment =>
        match segment.state.last_touched with
        | some key =>
            match mapGet resources key with
            | some res => mapInsert eaten key res.state
            | none => eaten
        | none => eaten) eaten
    else eaten) []

/-- The inner segment loop body of `find_touched_spores`: a segment whose
`last_touched` resolves to a minion of differing gender records that
minion's Dna under the minion id. -/
def touchedSegStep (minions : AgentMap) (spore : Agent)
    (touched : List (Nat × Dna)) (segment : Segment) : List (Nat × Dna) :=
  match segment.state.last_touched with
  | some key =>
      match mapGet minions key with
      | some minion =>
          if minion.gender != spore.gender then
            mapInsert touched key minion.dna
          else touched
      | none => touched
  | none => touched

/-- `AlifeSystem::find_touched_spores`: for every active, not yet
fertilised spore, run the segment loop. -/
def find_touched_spores (minions spores : AgentMap) : List (Nat × Dna) :=
  spores.foldl (fun touched kv =>
    if kv.2.state.is_active && !kv.2.state.is_fertilised then
      kv.2.segments.foldl (touchedSegStep minions kv.2) touched
    else touched) []

/-- The reproduction step of `update_minions` (the `is_expired` /
`consume_ratio(0.75)` conditional): on success one spawn event at the last
segment's transform with the minion's own Dna, and the lifecycle is
renewed. -/
def reproStep (a : Agent) : List (Transform × Dna) × Agent :=
  if a.state.lifecycle.is_expired then
    match a.state.consume_ratio (3/4) with
    | (true, st) => ([(a.last_segment.transform, a.dna)], { a with state := st.renew })
    | (false, st) => ([], { a with state := st })
  else ([], a)

/-- The boundary condition of the per-segment loop of `update_minions`:
`p.x < extent.min.x || p.x > extent.max.x || p.y < extent.min.y ||
p.y > extent.max.y`. -/
def outsideExtent (extent : Rect) (seg : Segment) : Prop :=
  seg.transform.position.x < extent.min.x ∨ seg.transform.position.x > extent.max.x
    ∨ seg.transform.position.y < extent.min.y ∨ seg.transform.position.y > extent.max.y

instance (extent : Rect) (seg : Segment) : Decidable (outsideExtent extent seg) := by
  unfold outsideExtent
  infer_instance

/-- One iteration of the per-segment loop in `update_minions`: boundary
check (outside the extent kills), mouth absorption from the `eaten`
snapshot, upkeep drain `dt * charge * radius`, then the segment's own state
update. -/
def segmentStep (dt : ℚ) (extent : Rect) (eaten : List (Nat × AgentState))
    (segUpdate : ℚ → SegState → SegState)
    (acc : AgentState × List Segment) (seg : Segment) : AgentState × List Segment :=
  let st := acc.1
  let st := if outsideExtent extent seg then st.die else st
  let st :=
    if seg.flag_mouth then
      match seg.state.last_touched with
      | some id =>
          match mapGet eaten id with
          | some eaten_state => st.absorb eaten_state.energy
          | none => st
      | none => st
    else st
  let st := st.consume (dt * seg.state.get_charge * seg.radius)
  (st, acc.2 ++ [{ seg with state := segUpdate dt seg.state }])

/-- The per-minion body of `update_minions`: reproduction, the segment
loop, the starvation check (corpse events from STORAGE segments, then
death), and tracker position recording.  Returns the updated agent, the
spawn events and the corpse events it contributed. -/
def updateMinion (dt : ℚ) (extent : Rect) (eaten : List (Nat × AgentState))
    (segUpdate : ℚ → SegState → SegState) (a : Agent) :
    Agent × List (Transform × Dna) × List (Transform × Dna) :=
  if a.state.is_active then
    let sp := reproStep a
    let spawns := sp.1
    let a := sp.2
    let fold := a.segments.foldl (segmentStep dt extent eaten segUpdate) (a.state, [])
    let a := { a with state := fold.1, segments := fold.2 }
    let co :=
      if a.state.energy < 1 then
        ((a.segments.filter (fun s => s.flag_storage)).map
          (fun s => (s.transform, a.dna)), { a with state := a.state.die })
      else ([], a)
    let corpses := co.1
    let a := co.2
    let a :=
      match a.first_tracker with
      | some s => { a with state := a.state.track_position s.transform.position }
      | none => a
    (a, spawns, corpses)
  else (a, [], [])

/-- `AlifeSystem::update_minions`: the loop over the minion map, with the
spawn and corpse event batches accumulated in iteration order. -/
def update_minions (dt : ℚ) (extent : Rect) (minions : AgentMap)
    (eaten : List (Nat × AgentState)) (segUpdate : ℚ → SegState → SegState) :
    AgentMap × List (Transform × Dna) × List (Transform × Dna) :=
  minions.foldl (fun acc kv =>
    let out := updateMinion dt extent eaten segUpdate kv.2
    (acc.1 ++ [(kv.1, out.1)], acc.2.1 ++ out.2.1, acc.2.2 ++ out.2.2))
    ([], [], [])

/-- `AlifeSystem::crossover`: with a foreign Dna present the external
genome crossover (a parameter, it draws from a process-wide random source)
is invoked; with none the own Dna is cloned. -/
def crossover (genomeCross : Dna → Dna → Dna) (dna : Dna) (foreign_dna : Option Dna) :
    Dna :=
  match foreign_dna with
  | some foreign => genomeCross foreign dna
  | none => dna

/-- The fertilization loop body of `update_spores`: a segment touch that
resolves in the `touched` snapshot overwrites the spore's foreign Dna via
`fertilise`. -/
def fertiliseStep (touched : List (Nat × Dna)) (st : AgentState)
    (segment : Segment) : AgentState :=
  match segment.state.last_touched with
  | some key =>
      match mapGet touched key with
      | some touched_dna => st.fertilise touched_dna
      | none => st
  | none => st

/-- The per-spore body of `update_spores`: an expired lifecycle hatches
(death plus one hatch event with the crossover Dna); otherwise an active
spore applies every fertilization touch recorded this tick and advances its
segments' states. -/
def updateSpore (dt : ℚ) (touched : List (Nat × Dna))
    (segUpdate : ℚ → SegState → SegState) (genomeCross : Dna → Dna → Dna)
    (a : Agent) : Agent × List (Transform × Dna) :=
  if a.state.lifecycle.is_expired then
    ({ a with state := a.state.die },
      [(a.transformOf, crossover genomeCross a.dna a.state.foreign_dna)])
  else if a.state.is_active then
    let st := a.segments.foldl (fertiliseStep touched) a.state
    let segs := a.segments.map (fun s => { s with state := segUpdate dt s.state })
    ({ a with state := st, segments := segs }, [])
  else (a, [])

/-- `AlifeSystem::update_spores`: the loop over the spore map. -/
def update_spores (dt : ℚ) (spores : AgentMap) (touched : List (Nat × Dna))
    (segUpdate : ℚ → SegState → SegState) (genomeCross : Dna → Dna → Dna) :
    AgentMap × List (Transform × Dna) :=
  spores.foldl (fun acc kv =>
    let out := updateSpore dt touched segUpdate genomeCross kv.2
    (acc.1 ++ [(kv.1, out.1)], acc.2 ++ out.2)) ([], [])

/-! ## C1: the reproduction step -/

theorem consume_ratio_alive (s : AgentState) (r : ℚ) :
    ((s.consume_ratio r).2).alive = s.alive := by
  unfold AgentState.consume_ratio
  split <;> rfl

theorem consume_ratio_false_id (s : AgentState) (r : ℚ)
    (h : (s.consume_ratio r).1 = false) : (s.consume_ratio r).2 = s := by
  unfold AgentState.consume_ratio at h ⊢
  by_cases hc : r * s.energy ≤ s.energy
  · rw [if_pos hc] at h
    simp at h
  · rw [if_neg hc]

theorem updateMinion_spawns (dt : ℚ) (extent : Rect)
    (eaten : List (Nat × AgentState)) (segUpdate : ℚ → SegState → SegState)
    (a : Agent) (hactive : a.state.is_active = true) :
    (updateMinion dt extent eaten segUpdate a).2.1 = (reproStep a).1 := by
  unfold updateMinion
  rw [hactive]
  simp only [if_true]

/-- C1.  For an active minion with an expired lifecycle: if the
`consume_ratio(0.75)` check succeeds, the whole per-minion update emits
exactly one spawn event carrying the last segment's transform and the
minion's own Dna, and the reproduction step renews the lifecycle and keeps
the minion alive; if the check fails, no spawn event is emitted anywhere in
the update and the reproduction step leaves the minion untouched (in
particular it does not kill it). -/
theorem claim_C1_reproduction (dt : ℚ) (extent : Rect)
    (eaten : List (Nat × AgentState)) (segUpdate : ℚ → SegState → SegState)
    (a : Agent) (hactive : a.state.is_active = true)
    (hexp : a.state.lifecycle.is_expired = true) :
    ((a.state.consume_ratio (3/4)).1 = true →
      (updateMinion dt extent eaten segUpdate a).2.1 =
          [(a.last_segment.transform, a.dna)]
        ∧ (reproStep a).2.state.lifecycle.age = 0
        ∧ (reproStep a).2.state.alive = a.state.alive)
    ∧ ((a.state.consume_ratio (3/4)).1 = false →
      (updateMinion dt extent eaten segUpdate a).2.1 = []
        ∧ (reproStep a).2 = a) := by
  have hrepro : ∀ P : List (Transform × Dna) × Agent → Prop,
      P (match a.state.consume_ratio (3/4) with
        | (true, st) =>
            ([(a.last_segment.transform, a.dna)], { a with state := st.renew })
        | (false, st) => ([], { a with state := st })) → P (reproStep a) := by
    intro P hP
    unfold reproStep
    rw [hexp]
    simpa using hP
  constructor
  · intro hsucc
    rcases hcr : a.state.consume_ratio (3/4) with ⟨b, st⟩
    have hb : b = true := by rw [hcr] at hsucc; exact hsucc
    subst hb
    have hst : st = (a.state.consume_ratio (3/4)).2 := by rw [hcr]
    have hr : reproStep a =
        ([(a.last_segment.transform, a.dna)], { a with state := st.renew }) := by
      unfold reproStep
      rw [hexp, hcr]
      rfl
    refine ⟨?_, ?_, ?_⟩
    · rw [updateMinion_spawns dt extent eaten segUpdate a hactive, hr]
    · rw [hr]
      rfl
    · rw [hr]
      show st.renew.alive = a.state.alive
      have : st.renew.alive = st.alive := rfl
      rw [this, hst, consume_ratio_alive]
  · intro hfail
    rcases hcr : a.state.consume_ratio (3/4) with ⟨b, st⟩
    have hb : b = false := by rw [hcr] at hfail; exact hfail
    subst hb
    have hst : st = a.state := by
      have := consume_ratio_false_id a.state (3/4) (by rw [hcr])
      rw [hcr] at this
      exact this
    have hr : reproStep a = ([], { a with state := st }) := by
      unfold reproStep
      rw [hexp, hcr]
      rfl
    refine ⟨?_, ?_⟩
    · rw [updateMinion_spawns dt extent eaten segUpdate a hactive, hr]
    · rw [hr, hst]

/-- A concrete active, expired, affordable minion used to witness C1. -/
def witnessSegment : Segment :=
  { transform := Transform.with_position ⟨0, 0⟩, radius := 1,
    flag_mouth := true, flag_storage := true, flag_tracker := false,
    state := { charge := 1, last_touched := none } }

def witnessMinion : Agent :=
  { id := 1, dna := [3, 1, 4],
    state := { alive := true, energy := 8, lifecycle := { age := 10, ttl := 10 },
               gender := false, fertilised := false, foreign_dna := none,
               trajectory := [] },
    segments := [witnessSegment] }

def witnessExtent : Rect := { min := ⟨-10, -10⟩, max := ⟨10, 10⟩ }

theorem claim_C1_reproduction_witness :
    witnessMinion.state.is_active = true
    ∧ witnessMinion.state.lifecycle.is_expired = true
    ∧ (witnessMinion.state.consume_ratio (3/4)).1 = true
    ∧ (updateMinion (1/60) witnessExtent [] (fun _ s => s) witnessMinion).2.1 =
        [(witnessMinion.last_segment.transform, witnessMinion.dna)] := by
  have hcr : (witnessMinion.state.consume_ratio (3/4)).1 = true := by
    norm_num [witnessMinion, AgentState.consume_ratio]
  refine ⟨rfl, by decide, hcr, ?_⟩
  exact ((claim_C1_reproduction (1/60) witnessExtent [] (fun _ s => s)
    witnessMinion rfl (by decide)).1 hcr).1

/-! ## C7: the boundary kill inside the segment loop -/

theorem reproStep_segments (a : Agent) : (reproStep a).2.segments = a.segments := by
  unfold reproStep
  split
  · rcases a.state.consume_ratio (3/4) with ⟨b, st⟩
    cases b <;> rfl
  · rfl

theorem segmentStep_alive (dt : ℚ) (extent : Rect) (eaten : List (Nat × AgentState))
    (segUpdate : ℚ → SegState → SegState) (acc : AgentState × List Segment)
    (seg : Segment) :
    ((segmentStep dt extent eaten segUpdate acc seg).1).alive =
      if outsideExtent extent seg then false else acc.1.alive := by
  simp only [segmentStep]
  by_cases ho : outsideExtent extent seg
  · rw [if_pos ho, if_pos ho]
    split
    · split
      · split <;> rfl
      · rfl
    · rfl
  · rw [if_neg ho, if_neg ho]
    split
    · split
      · split <;> rfl
      · rfl
    · rfl

theorem foldl_segmentStep_false (dt : ℚ) (extent : Rect)
    (eaten : List (Nat × AgentState)) (segUpdate : ℚ → SegState → SegState)
    (segs : List Segment) :
    ∀ acc : AgentState × List Segment, acc.1.alive = false →
      ((segs.foldl (segmentStep dt extent eaten segUpdate) acc).1).alive = false := by
  induction segs with
  | nil => intro acc h; exact h
  | cons seg rest ih =>
      intro acc h
      rw [List.foldl_cons]
      refine ih _ ?_
      rw [segmentStep_alive, h]
      split <;> rfl

theorem foldl_segmentStep_outside (dt : ℚ) (extent : Rect)
    (eaten : List (Nat × AgentState)) (segUpdate : ℚ → SegState → SegState)
    (segs : List Segment) (hex : ∃ seg ∈ segs, outsideExtent extent seg) :
    ∀ acc : AgentState × List Segment,
      ((segs.foldl (segmentStep dt extent eaten segUpdate) acc).1).alive = false := by
  induction segs with
  | nil => simp at hex
  | cons seg rest ih =>
      intro acc
      rw [List.foldl_cons]
      rcases hex with ⟨s, hs, hout⟩
      rcases List.mem_cons.mp hs with h | h
      · subst h
        refine foldl_segmentStep_false dt extent eaten segUpdate rest _ ?_
        rw [segmentStep_alive, if_pos hout]
      · exact ih ⟨s, h, hout⟩ _

/-- C7, amended.  A minion with a segment outside the World extent is dead
at the end of its per-minion update: the kill set in the per-segment loop
is permanent for the tick (nothing revives the agent), although it happens
inside the loop, after the reproduction step, and the remaining per-segment
mutations still execute (see the counterexample). -/
theorem claim_C7_amended_boundary_kill (dt : ℚ) (extent : Rect)
    (eaten : List (Nat × AgentState)) (segUpdate : ℚ → SegState → SegState)
    (a : Agent) (hactive : a.state.is_active = true)
    (hex : ∃ seg ∈ a.segments, outsideExtent extent seg) :
    ((updateMinion dt extent eaten segUpdate a).1).state.alive = false := by
  simp only [updateMinion, hactive, if_true]
  have hsegs : (reproStep a).2.segments = a.segments := reproStep_segments a
  have hdead : (((reproStep a).2.segments.foldl
      (segmentStep dt extent eaten segUpdate) ((reproStep a).2.state, [])).1).alive
        = false := by
    rw [hsegs]
    exact foldl_segmentStep_outside dt extent eaten segUpdate a.segments hex _
  split <;> split <;> first | rfl | exact hdead

/-- A mouth segment far outside the extent, touching resource 5. -/
def cexSegmentOut : Segment :=
  { transform := Transform.with_position ⟨100, 0⟩, radius := 1,
    flag_mouth := true, flag_storage := false, flag_tracker := false,
    state := { charge := 1, last_touched := some 5 } }

/-- An active, expired, affordable minion whose only segment is outside. -/
def cexMinionOut : Agent :=
  { id := 2, dna := [9],
    state := { alive := true, energy := 8, lifecycle := { age := 10, ttl := 10 },
               gender := false, fertilised := false, foreign_dna := none,
               trajectory := [] },
    segments := [cexSegmentOut] }

/-- The eaten snapshot crediting resource 5 with energy 3. -/
def cexEaten : List (Nat × AgentState) :=
  [(5, { alive := true, energy := 3, lifecycle := { age := 0, ttl := 100 },
         gender := false, fertilised := false, foreign_dna := none,
         trajectory := [] })]

/-- C7, counterexample.  A minion whose only segment is outside the extent
is indeed killed, but the processing is not "kill immediately with no
partial state": the reproduction step still emits its spawn event (it runs
before the boundary check) and the energy is still mutated after the kill
(absorption +3 and upkeep -1 bring 8 to 4 after the 6-point reproduction
debit), refuting the claimed ordering and atomicity. -/
theorem claim_C7_counterexample :
    outsideExtent witnessExtent cexSegmentOut
    ∧ cexSegmentOut ∈ cexMinionOut.segments
    ∧ cexMinionOut.state.is_active = true
    ∧ (updateMinion 1 witnessExtent cexEaten (fun _ s => s) cexMinionOut).2.1 =
        [(cexSegmentOut.transform, cexMinionOut.dna)]
    ∧ ((updateMinion 1 witnessExtent cexEaten (fun _ s => s)
        cexMinionOut).1).state.alive = false
    ∧ ((updateMinion 1 witnessExtent cexEaten (fun _ s => s)
        cexMinionOut).1).state.energy = 4
    ∧ cexMinionOut.state.energy = 8 := by
  refine ⟨?_, by simp [cexMinionOut], rfl, ?_, ?_, ?_, rfl⟩
  · norm_num [outsideExtent, cexSegmentOut, witnessExtent, Transform.with_position]
  all_goals
    norm_num [updateMinion, reproStep, segmentStep, outsideExtent,
      AgentState.is_active, AgentState.consume_ratio, AgentState.die,
      AgentState.absorb, AgentState.consume, AgentState.renew,
      AgentState.track_position, Lifecycle.is_expired, Lifecycle.renew,
      Agent.last_segment, Agent.first_tracker, SegState.get_charge, mapGet,
      List.find?, cexSegmentOut, cexMinionOut, cexEaten, witnessExtent,
      Transform.with_position]

theorem claim_C7_amended_boundary_kill_witness :
    cexMinionOut.state.is_active = true
    ∧ (∃ seg ∈ cexMinionOut.segments, outsideExtent witnessExtent seg)
    ∧ ((updateMinion 1 witnessExtent cexEaten (fun _ s => s)
        cexMinionOut).1).state.alive = false := by
  have hex : ∃ seg ∈ cexMinionOut.segments, outsideExtent witnessExtent seg := by
    refine ⟨cexSegmentOut, by simp [cexMinionOut], ?_⟩
    norm_num [outsideExtent, cexSegmentOut, witnessExtent, Transform.with_position]
  exact ⟨rfl, hex,
    claim_C7_amended_boundary_kill 1 witnessExtent cexEaten (fun _ s => s)
      cexMinionOut rfl hex⟩

/-! ## C2: the one-tick double spend of an eaten resource -/

/-- An in-extent MOUTH segment with `last_touched` pointing at `rid`. -/
def mouthSegment (rid : Nat) : Segment :=
  { transform := Transform.with_position ⟨0, 0⟩, radius := 1,
    flag_mouth := true, flag_storage := false, flag_tracker := false,
    state := { charge := 1, last_touched := some rid } }

/-- An active minion with one mouth segment touching resource `rid`. -/
def mouthMinion (id : Nat) (e : ℚ) (rid : Nat) : Agent :=
  { id := id, dna := [id],
    state := { alive := true, energy := e, lifecycle := { age := 0, ttl := 100 },
               gender := false, fertilised := false, foreign_dna := none,
               trajectory := [] },
    segments := [mouthSegment rid] }

/-- The state of the shared resource, with energy payload `e`. -/
def resState (e : ℚ) : AgentState :=
  { alive := true, energy := e, lifecycle := { age := 0, ttl := 100 },
    gender := false, fertilised := false, foreign_dna := none, trajectory := [] }

/-- The shared resource agent. -/
def resourceAgent (rid : Nat) (e : ℚ) : Agent :=
  { id := rid, dna := [], state := resState e, segments := [] }

/-- C2.  Two distinct active minions whose mouths name the same eaten
resource both absorb its full energy payload in the same tick (the
documented double spend): each ends the tick with its own energy plus the
whole payload `E` minus its upkeep.  The duplicate inserts into the eaten
map collapse to a single binding, so each minion is credited exactly once
per mouth lookup. -/
theorem claim_C2_double_spend (e1 e2 E dt : ℚ)
    (h1 : 1 ≤ e1 + E - dt) (h2 : 1 ≤ e2 + E - dt) :
    find_eaten_resources
        [(1, mouthMinion 1 e1 50), (2, mouthMinion 2 e2 50)]
        [(50, resourceAgent 50 E)] = [(50, resState E)]
    ∧ ((update_minions dt witnessExtent
          [(1, mouthMinion 1 e1 50), (2, mouthMinion 2 e2 50)]
          (find_eaten_resources
            [(1, mouthMinion 1 e1 50), (2, mouthMinion 2 e2 50)]
            [(50, resourceAgent 50 E)])
          (fun _ s => s)).1.map
        (fun kv => (kv.1, kv.2.state.energy, kv.2.state.alive))) =
      [(1, e1 + E - dt, true), (2, e2 + E - dt, true)] := by
  have hfind : find_eaten_resources
      [(1, mouthMinion 1 e1 50), (2, mouthMinion 2 e2 50)]
      [(50, resourceAgent 50 E)] = [(50, resState E)] := by
    norm_num [find_eaten_resources, mouthMinion, mouthSegment, resourceAgent,
      AgentState.is_active, mapGet, mapInsert, List.find?]
  have h1' : ¬(e1 + E - dt < 1) := not_lt.mpr h1
  have h2' : ¬(e2 + E - dt < 1) := not_lt.mpr h2
  refine ⟨hfind, ?_⟩
  rw [hfind]
  norm_num [update_minions, updateMinion, reproStep, segmentStep, outsideExtent,
    AgentState.is_active, AgentState.consume_ratio, AgentState.absorb,
    AgentState.consume, AgentState.die, AgentState.renew, Lifecycle.is_expired,
    Agent.first_tracker, SegState.get_charge, mapGet, List.find?, mouthMinion,
    mouthSegment, resState, witnessExtent, Transform.with_position, h1', h2']

theorem claim_C2_double_spend_witness :
    (1:ℚ) ≤ 10 + 7 - 1 ∧ (1:ℚ) ≤ 5 + 7 - 1
    ∧ ((update_minions 1 witnessExtent
          [(1, mouthMinion 1 10 50), (2, mouthMinion 2 5 50)]
          (find_eaten_resources
            [(1, mouthMinion 1 10 50), (2, mouthMinion 2 5 50)]
            [(50, resourceAgent 50 7)])
          (fun _ s => s)).1.map
        (fun kv => (kv.1, kv.2.state.energy, kv.2.state.alive))) =
      [(1, 10 + 7 - 1, true), (2, 5 + 7 - 1, true)] :=
  ⟨by norm_num, by norm_num,
    (claim_C2_double_spend 10 5 7 1 (by norm_num) (by norm_num)).2⟩

/-! ## C8: hatching without fertilization clones the own Dna -/

/-- C8.  A spore whose lifecycle expires with no foreign Dna captured emits
exactly one hatch event carrying its own Dna (and dies): `crossover`
applied to an absent foreign Dna is the identity, for any external genome
crossover operator. -/
theorem claim_C8_hatch_clone (dt : ℚ) (touched : List (Nat × Dna))
    (segUpdate : ℚ → SegState → SegState) (genomeCross : Dna → Dna → Dna)
    (a : Agent) (hexp : a.state.lifecycle.is_expired = true)
    (hfor : a.state.foreign_dna = none) :
    (updateSpore dt touched segUpdate genomeCross a).2 = [(a.transformOf, a.dna)]
    ∧ (updateSpore dt touched segUpdate genomeCross a).1.state.alive = false
    ∧ crossover genomeCross a.dna a.state.foreign_dna = a.dna := by
  unfold updateSpore
  rw [hexp]
  simp only [if_true]
  refine ⟨?_, rfl, ?_⟩ <;> rw [hfor] <;> rfl

/-- A concrete unfertilised spore with expired lifecycle. -/
def cexSporePlain : Agent :=
  { id := 3, dna := [7, 7],
    state := { alive := true, energy := 2, lifecycle := { age := 30, ttl := 30 },
               gender := true, fertilised := false, foreign_dna := none,
               trajectory := [] },
    segments := [{ transform := Transform.with_position ⟨1, 1⟩, radius := 1,
                   flag_mouth := false, flag_storage := false,
                   flag_tracker := false,
                   state := { charge := 0, last_touched := none } }] }

theorem claim_C8_hatch_clone_witness :
    cexSporePlain.state.lifecycle.is_expired = true
    ∧ cexSporePlain.state.foreign_dna = none
    ∧ (updateSpore 1 [] (fun _ s => s) (fun f _ => f) cexSporePlain).2 =
        [(cexSporePlain.transformOf, cexSporePlain.dna)] :=
  ⟨by decide, rfl,
    (claim_C8_hatch_clone 1 [] (fun _ s => s) (fun f _ => f) cexSporePlain
      (by decide) rfl).1⟩

/-! ## C6: fertilization capture and overwrite order -/

/-- The successful touch lookups of a segment list against the `touched`
snapshot, in segment order. -/
def sporeTouches (touched : List (Nat × Dna)) (segs : List Segment) : List Dna :=
  segs.filterMap (fun seg => seg.state.last_touched.bind (fun k => mapGet touched k))

theorem foldl_fertiliseStep_foreign (touched : List (Nat × Dna))
    (segs : List Segment) :
    ∀ st : AgentState,
      (segs.foldl (fertiliseStep touched) st).foreign_dna =
        match sporeTouches touched segs with
        | [] => st.foreign_dna
        | d :: ds => some (ds.getLastD d) := by
  induction segs with
  | nil => intro st; rfl
  | cons seg rest ih =>
      intro st
      rw [List.foldl_cons]
      cases htt : seg.state.last_touched with
      | none =>
          have hstep : fertiliseStep touched st seg = st := by
            unfold fertiliseStep
            rw [htt]
          have htc : sporeTouches touched (seg :: rest) = sporeTouches touched rest := by
            simp [sporeTouches, htt]
          rw [hstep, htc]
          exact ih st
      | some k =>
          cases hmg : mapGet touched k with
          | none =>
              have hstep : fertiliseStep touched st seg = st := by
                unfold fertiliseStep
                simp only [htt, hmg]
              have htc : sporeTouches touched (seg :: rest) =
                  sporeTouches touched rest := by
                simp [sporeTouches, htt, hmg]
              rw [hstep, htc]
              exact ih st
          | some d0 =>
              have hstep : fertiliseStep touched st seg = st.fertilise d0 := by
                unfold fertiliseStep
                simp only [htt, hmg]
              have htc : sporeTouches touched (seg :: rest) =
                  d0 :: sporeTouches touched rest := by
                simp [sporeTouches, htt, hmg]
              rw [hstep, htc]
              rw [ih (st.fertilise d0)]
              cases hr : sporeTouches touched rest with
              | nil => rfl
              | cons d ds =>
                  show some (ds.getLastD d) = some ((d :: ds).getLastD d0)
                  rw [List.getLastD_cons]

/-- What it means for a binding of the `touched` snapshot to be a valid
fertilization capture: the key resolves to a minion whose Dna is the value,
and some active, unfertilised spore has a segment touched by that minion,
whose gender differs from the spore's. -/
def TouchCapture (minions spores : AgentMap) (k : Nat) (d : Dna) : Prop :=
  ∃ m, mapGet minions k = some m ∧ d = m.dna ∧
    ∃ kv ∈ spores, kv.2.state.is_active = true
      ∧ kv.2.state.is_fertilised = false
      ∧ m.gender ≠ kv.2.gender
      ∧ ∃ seg ∈ kv.2.segments, seg.state.last_touched = some k

theorem mem_mapInsert {α : Type} (m : List (Nat × α)) (k : Nat) (v : α) :
    ∀ kv ∈ mapInsert m k v, kv ∈ m ∨ kv = (k, v) := by
  intro kv h
  unfold mapInsert at h
  rcases List.mem_append.mp h with h | h
  · exact Or.inl (List.mem_filter.mp h).1
  · exact Or.inr (List.mem_singleton.mp h)

theorem touchedSegStep_fold_sound (minions spores : AgentMap) (kv : Nat × Agent)
    (hkv : kv ∈ spores) (hact : kv.2.state.is_active = true)
    (hfert : kv.2.state.is_fertilised = false) (segs : List Segment) :
    ∀ (_ : ∀ s ∈ segs, s ∈ kv.2.segments)
      (acc : List (Nat × Dna)),
      (∀ p ∈ acc, TouchCapture minions spores p.1 p.2) →
      ∀ p ∈ segs.foldl (touchedSegStep minions kv.2) acc,
        TouchCapture minions spores p.1 p.2 := by
  induction segs with
  | nil => intro _ acc hacc p hp; exact hacc p hp
  | cons seg rest ih =>
      intro hsub acc hacc p hp
      rw [List.foldl_cons] at hp
      refine ih (fun s hs => hsub s (List.mem_cons_of_mem _ hs)) _ ?_ p hp
      intro q hq
      unfold touchedSegStep at hq
      cases htt : seg.state.last_touched with
      | none =>
          simp only [htt] at hq
          exact hacc q hq
      | some k =>
          simp only [htt] at hq
          cases hmg : mapGet minions k with
          | none =>
              simp only [hmg] at hq
              exact hacc q hq
          | some m =>
              simp only [hmg] at hq
              by_cases hg : (m.gender != kv.2.gender) = true
              · rw [if_pos hg] at hq
                rcases mem_mapInsert acc k m.dna q hq with hold | hnew
                · exact hacc q hold
                · subst hnew
                  refine ⟨m, hmg, rfl, kv, hkv, hact, hfert, ?_,
                    seg, hsub seg (List.mem_cons_self _ _), htt⟩
                  exact bne_iff_ne.mp hg
              · rw [if_neg hg] at hq
                exact hacc q hq

theorem find_touched_spores_sound (minions spores : AgentMap) :
    ∀ p ∈ find_touched_spores minions spores,
      TouchCapture minions spores p.1 p.2 := by
  unfold find_touched_spores
  suffices h : ∀ (sps : List (Nat × Agent)), (∀ kv ∈ sps, kv ∈ spores) →
      ∀ acc, (∀ p ∈ acc, TouchCapture minions spores p.1 p.2) →
      ∀ p ∈ sps.foldl (fun touched kv =>
          if kv.2.state.is_active && !kv.2.state.is_fertilised then
            kv.2.segments.foldl (touchedSegStep minions kv.2) touched
          else touched) acc,
        TouchCapture minions spores p.1 p.2 by
    intro p hp
    exact h spores (fun _ hx => hx) [] (by simp) p hp
  intro sps
  induction sps with
  | nil => intro _ acc hacc p hp; exact hacc p hp
  | cons kv rest ih =>
      intro hsub acc hacc p hp
      rw [List.foldl_cons] at hp
      refine ih (fun s hs => hsub s (List.mem_cons_of_mem _ hs)) _ ?_ p hp
      intro q hq
      by_cases hc : (kv.2.state.is_active && !kv.2.state.is_fertilised) = true
      · rw [if_pos hc] at hq
        have ha : kv.2.state.is_active = true := by
          cases h : kv.2.state.is_active
          · rw [h] at hc; simp at hc
          · rfl
        have hf : kv.2.state.is_fertilised = false := by
          cases h : kv.2.state.is_fertilised
          · rfl
          · rw [h] at hc; simp at hc
        exact touchedSegStep_fold_sound minions spores kv
          (hsub kv (List.mem_cons_self _ _)) ha hf
          kv.2.segments (fun _ hs => hs) acc hacc q hq
      · rw [if_neg hc] at hq
        exact hacc q hq

/-- C6, amended.  Only touches by minions of differing gender are captured
into the `touched` snapshot (every binding is a valid differing-gender
capture); but when several minions touch different segments of the same
spore in one tick, the Dna recorded at the end of the spore update is the
LAST toucher's in segment order, not the first's, because each `fertilise`
write overwrites the previous one. -/
theorem claim_C6_amended_fertilization (minions spores : AgentMap)
    (dt : ℚ) (touched : List (Nat × Dna)) (segUpdate : ℚ → SegState → SegState)
    (genomeCross : Dna → Dna → Dna) (a : Agent)
    (hact : a.state.is_active = true)
    (hexp : a.state.lifecycle.is_expired = false) :
    (∀ p ∈ find_touched_spores minions spores,
        TouchCapture minions spores p.1 p.2)
    ∧ ((updateSpore dt touched segUpdate genomeCross a).1.state.foreign_dna =
        match sporeTouches touched a.segments with
        | [] => a.state.foreign_dna
        | d :: ds => some (ds.getLastD d)) := by
  refine ⟨find_touched_spores_sound minions spores, ?_⟩
  unfold updateSpore
  have h1 : ¬(a.state.lifecycle.is_expired = true) := by
    rw [hexp]
    simp
  rw [if_neg h1, if_pos hact]
  exact foldl_fertiliseStep_foreign touched a.segments a.state

/-- A contact-less minion with the given id and Dna, gender `false`. -/
def touchMinion (id : Nat) (d : Dna) : Agent :=
  { id := id, dna := d,
    state := { alive := true, energy := 5, lifecycle := { age := 0, ttl := 100 },
               gender := false, fertilised := false, foreign_dna := none,
               trajectory := [] },
    segments := [] }

/-- A spore segment last touched by minion `k`. -/
def sporeSeg (k : Nat) : Segment :=
  { transform := Transform.with_position ⟨0, 0⟩, radius := 1,
    flag_mouth := false, flag_storage := false, flag_tracker := false,
    state := { charge := 0, last_touched := some k } }

/-- An active unfertilised spore of gender `true`, with two segments
touched by minions 11 and 12 in that order. -/
def cexSporeTwo : Agent :=
  { id := 4, dna := [0],
    state := { alive := true, energy := 2, lifecycle := { age := 0, ttl := 100 },
               gender := true, fertilised := false, foreign_dna := none,
               trajectory := [] },
    segments := [sporeSeg 11, sporeSeg 12] }

def cexMinions : AgentMap := [(11, touchMinion 11 [1]), (12, touchMinion 12 [2])]

def cexSpores : AgentMap := [(4, cexSporeTwo)]

/-- C6, counterexample.  Minion 11 (Dna `[1]`) touches the spore's first
segment and minion 12 (Dna `[2]`) its second; both captures land in the
`touched` snapshot, and the spore update records `[2]` — the LAST toucher's
Dna — as the foreign Dna, not the first toucher's `[1]`. -/
theorem claim_C6_counterexample :
    mapGet (find_touched_spores cexMinions cexSpores) 11 = some [1]
    ∧ mapGet (find_touched_spores cexMinions cexSpores) 12 = some [2]
    ∧ (cexSporeTwo.segments.map (fun s => s.state.last_touched)) =
        [some 11, some 12]
    ∧ (updateSpore 1 (find_touched_spores cexMinions cexSpores)
        (fun _ s => s) (fun f _ => f) cexSporeTwo).1.state.foreign_dna = some [2]
    ∧ some [2] ≠ (some [1] : Option Dna) := by
  refine ⟨by decide, by decide, by decide, by decide, by decide⟩

theorem claim_C6_amended_fertilization_witness :
    cexSporeTwo.state.is_active = true
    ∧ cexSporeTwo.state.lifecycle.is_expired = false
    ∧ ((updateSpore 1 (find_touched_spores cexMinions cexSpores)
        (fun _ s => s) (fun f _ => f) cexSporeTwo).1.state.foreign_dna =
        match sporeTouches (find_touched_spores cexMinions cexSpores)
            cexSporeTwo.segments with
        | [] => cexSporeTwo.state.foreign_dna
        | d :: ds => some (ds.getLastD d)) :=
  ⟨rfl, by decide,
    (claim_C6_amended_fertilization cexMinions cexSpores 1
      (find_touched_spores cexMinions cexSpores) (fun _ s => s) (fun f _ => f)
      cexSporeTwo rfl (by decide)).2⟩

/-! ## C4: the per-tick step order of `App::update` (`src/app/mod.rs`) -/

/-- The six system kinds in the fixed order of `Systems::systems()`. -/
inductive SystemId where
  | animation
  | audio
  | game
  | ai
  | alife
  | physics
deriving DecidableEq, Repr, Fintype

def systemOrder : List SystemId :=
  [.animation, .audio, .game, .ai, .alife, .physics]

/-- The observable steps of one `App::update` tick.  `App::cleanup` is the
two steps `sweep` (remove dead agents from the World) and `unregisterFreed`
(notify every system of every swept agent); `updateWorld s` is system `s`'s
`update_world` call, which performs its `to_world` (modelled from the spec:
the three-phase from_world/update/to_world protocol). -/
inductive TickStep where
  | sweep
  | unregisterFreed
  | cameraUpdate
  | updateInput
  | updateWorld (s : SystemId)
  | registerAll
deriving DecidableEq, Repr

/-- Whether a step is part of `App::cleanup`. -/
def TickStep.isCleanup : TickStep → Bool
  | .sweep => true
  | .unregisterFreed => true
  | _ => false

/-- The step sequence of `App::update`: `cleanup()` (sweep, then
unregister), camera update, input update, `update_systems` (one
`update_world` per system in the fixed order), then `register_all()`. -/
def appUpdateTrace : List TickStep :=
  [.sweep, .unregisterFreed, .cameraUpdate, .updateInput]
    ++ systemOrder.map TickStep.updateWorld ++ [.registerAll]

/-- C4, counterexample.  It is NOT the case that the cleanup steps of a
tick come after all of that tick's `to_world` (`update_world`) calls: in
`App::update` the cleanup runs at the start of the tick, before
`update_systems`. -/
theorem claim_C4_counterexample :
    ¬ (∀ (i j : Fin appUpdateTrace.length) (s : SystemId),
        (appUpdateTrace.get i).isCleanup = true →
        appUpdateTrace.get j = .updateWorld s →
        (j : ℕ) < (i : ℕ)) := by
  decide

/-- C4, amended.  Within a tick of `App::update`, the cleanup (sweep of
dead agents and the per-system unregister notifications) precedes every
system's `update_world` (hence every `to_world`) call, and `register_all`
follows them all; only `register_all`, not cleanup, runs after the
`to_world` calls. -/
theorem claim_C4_amended_tick_order :
    (∀ (i j : Fin appUpdateTrace.length) (s : SystemId),
        (appUpdateTrace.get i).isCleanup = true →
        appUpdateTrace.get j = .updateWorld s →
        (i : ℕ) < (j : ℕ))
    ∧ (∀ (i j : Fin appUpdateTrace.length) (s : SystemId),
        appUpdateTrace.get i = .updateWorld s →
        appUpdateTrace.get j = .registerAll →
        (i : ℕ) < (j : ℕ)) := by
  decide

/-- Index of the sweep step in the trace. -/
def idxSweep : Fin appUpdateTrace.length := ⟨0, by decide⟩

/-- Index of the animation system's update_world step in the trace. -/
def idxAnimation : Fin appUpdateTrace.length := ⟨4, by decide⟩

theorem claim_C4_amended_tick_order_witness :
    (appUpdateTrace.get idxSweep).isCleanup = true
    ∧ appUpdateTrace.get idxAnimation = .updateWorld .animation
    ∧ (idxSweep : ℕ) < (idxAnimation : ℕ) :=
  ⟨rfl, rfl,
    claim_C4_amended_tick_order.1 idxSweep idxAnimation .animation rfl rfl⟩

end RustOids
